import Mathlib

/-!
Shallow embedding of the response correlation and delivery engine of
`dbl-chat-cli` (`src/dbl_chat_cli/client.py`, with the transport surface of
`src/dbl_chat_cli/gateway_api.py` treated as an oracle).

JSON values exchanged with the gateway are modelled by `JVal`; a Python
`dict[str, Any]` is an association list.  Machine behaviour that the claims
depend on (Python truthiness, `dict.get` defaults, `or`, `isinstance`
checks, f-string rendering via `str`) is modelled explicitly.  The transport
is modelled by the data it hands the client: a tail call receives the parsed
event stream, a poll iteration receives either the parsed `events` array of
a snapshot page, an `httpx.HTTPStatusError` carrying a status code, or some
other transport exception (which `_wait_poll` does not catch).
-/

/-- A JSON value, as produced by `resp.json()` / `json.loads`. -/
inductive JVal where
  | jnull
  | jbool (b : Bool)
  | jint (n : Int)
  | jstr (s : String)
  | jobj (fields : List (String × JVal))
  | jarr (elems : List JVal)

/-- A gateway event: a Python `dict[str, Any]` parsed from JSON. -/
abbrev Event := List (String × JVal)

/-- `d.get(k)`: `none` when the key is absent (Python `None`). -/
def dictGet (d : List (String × JVal)) (k : String) : Option JVal :=
  match d with
  | [] => none
  | (k2, v) :: rest => if k2 = k then some v else dictGet rest k

/-- Python truthiness of a JSON value (`bool(v)`). -/
def JVal.truthy : JVal → Bool
  | .jnull => false
  | .jbool b => b
  | .jint n => n != 0
  | .jstr s => s != ""
  | .jobj f => !f.isEmpty
  | .jarr a => !a.isEmpty

/-- Python `a or b` on optional JSON values (`none` is Python `None`). -/
def pyOrOpt (a b : Option JVal) : Option JVal :=
  match a with
  | some v => if v.truthy then some v else b
  | none => b

/-- `isinstance(v, int)` with the integer value: Python `bool` is an
`int` subtype (`True == 1`, `False == 0`). -/
def pyInt : JVal → Option Int
  | .jint n => some n
  | .jbool b => some (if b then 1 else 0)
  | _ => none

/-- Python `v == s` for a string literal `s`: true only when `v` is that
very string (equality of a `str` with any other type is `False`). -/
def isStrEq (v : Option JVal) (s : String) : Bool :=
  match v with
  | some (.jstr t) => t = s
  | _ => false

/-- `isinstance(x, str) and x.strip()`: the string, when `x` is a string
that is non-blank, i.e. contains a non-whitespace character (`x.strip()` is
truthy exactly then; the exact whitespace alphabet of Python is
approximated by `Char.isWhitespace`). -/
def strippedText (v : Option JVal) : Option String :=
  match v with
  | some (.jstr s) => if s.toList.any (fun c => !c.isWhitespace) then some s else none
  | _ => none

/-- A single-quote character, as used by Python `repr` of strings. -/
def pyQuote : String := String.singleton (Char.ofNat 39)

mutual

/-- Python `repr` of a JSON value (backslash-escaping inside strings is
beyond the model; no claim depends on it). -/
def pyRepr : JVal → String
  | .jnull => "None"
  | .jbool true => "True"
  | .jbool false => "False"
  | .jint n => toString n
  | .jstr s => pyQuote ++ s ++ pyQuote
  | .jobj f => "\x7b" ++ pyReprObj f ++ "\x7d"
  | .jarr a => "[" ++ pyReprArr a ++ "]"

/-- `repr` of the comma-separated entries of a Python dict. -/
def pyReprObj : List (String × JVal) → String
  | [] => ""
  | [(k, v)] => pyQuote ++ k ++ pyQuote ++ ": " ++ pyRepr v
  | (k, v) :: rest => pyQuote ++ k ++ pyQuote ++ ": " ++ pyRepr v ++ ", " ++ pyReprObj rest

/-- `repr` of the comma-separated items of a Python list. -/
def pyReprArr : List JVal → String
  | [] => ""
  | [v] => pyRepr v
  | v :: rest => pyRepr v ++ ", " ++ pyReprArr rest

end

/-- Python `str(v)` as used by f-string interpolation. -/
def pyStr : JVal → String
  | .jstr s => s
  | v => pyRepr v

/-- The f-string `"(execution_error) \x7bcode\x7d: \x7bmessage\x7d"`. -/
def pyExecError (code message : JVal) : String :=
  "(execution_error) " ++ pyStr code ++ ": " ++ pyStr message

/-- `alt_output = payload.get("output") or payload.get("result")` followed
by the `isinstance(alt_output, dict)` / non-blank `text` checks
(client.py lines 149-153). -/
def execAltText (p : List (String × JVal)) : Option String :=
  match pyOrOpt (dictGet p "output") (dictGet p "result") with
  | some (.jobj o) => strippedText (dictGet o "text")
  | _ => none

/-- The `EXECUTION` branch of `_extract_response` (client.py lines 145-159),
applied to the event's payload dict. -/
def execOutput (p : List (String × JVal)) : String :=
  match strippedText (dictGet p "output_text") with
  | some s => s
  | none =>
    match execAltText p with
    | some t => t
    | none =>
      match dictGet p "error" with
      | some (.jobj e) =>
          pyExecError ((dictGet e "code").getD (.jstr "error"))
            ((dictGet e "message").getD (.jstr ""))
      | _ => "(execution) no output_text"

/-- `_extract_response(event, correlation_id)` (client.py lines 140-164). -/
def extractResponse (event : Event) (correlationId : String) : Option String :=
  if isStrEq (dictGet event "correlation_id") correlationId then
    match dictGet event "kind", dictGet event "payload" with
    | some (.jstr "EXECUTION"), some (.jobj p) => some (execOutput p)
    | some (.jstr "DECISION"), some (.jobj p) =>
        if isStrEq (dictGet p "decision") "DENY" then
          some ("decision: " ++ pyStr (.jobj p))
        else none
    | _, _ => none
  else none

/-- `_update_last_index(current, event)` (client.py lines 133-137). -/
def updateLastIndex (current : Int) (event : Event) : Int :=
  match (dictGet event "index").bind pyInt with
  | some idx => if idx > current then idx else current
  | none => current

/-- The shared per-event loop body of `_wait_tail` and `_wait_poll`:
update `last_index`, return the first extracted response.  Events after a
match are not consumed. -/
def scanEvents (cid : String) : Int → List Event → Int × Option String
  | li, [] => (li, none)
  | li, e :: rest =>
    let li2 := updateLastIndex li e
    match extractResponse e cid with
    | some t => (li2, some t)
    | none => scanEvents cid li2 rest

/-- The outcome of one call to `GatewayAPI.snapshot` as seen by
`_wait_poll`: the parsed `events` array of the page, an
`httpx.HTTPStatusError` carrying the response's status code (the only
exception class the loop catches), or some other transport exception
(e.g. `httpx.ConnectError`), which the loop does not catch. -/
inductive SnapResult where
  | ok (events : List Event)
  | httpError (status : Int)
  | otherExc

/-- How a `_wait_poll` loop ends. -/
inductive PollOutcome where
  | found (text : String)
  | snapshotUnsupported
  | pollingExhausted
  | otherError
deriving DecidableEq

/-- The loop state of `_wait_poll`: the client's `_offset` and
`_last_index` plus the local `delay` and `failures` variables.  All delay
values reachable from `0.5` under `min(d*1.5, 5.0)` and `min(d*2, 15.0)`
are exactly representable dyadic rationals, so `delay` is modelled by an
exact rational with no loss against the float arithmetic of the source. -/
structure PollState where
  offset : Nat
  lastIndex : Int
  delay : ℚ
  failures : Nat

/-- `_wait_poll`'s initial state for a call (client.py lines 108-109):
`delay = 0.5`, `failures = 0`, cursors taken from the client instance. -/
def initPollState (offset : Nat) (lastIndex : Int) : PollState :=
  { offset := offset, lastIndex := lastIndex, delay := 1 / 2, failures := 0 }

/-- One iteration of the `while True` loop of `_wait_poll`
(client.py lines 110-130) given the transport's answer for this
iteration.  Returns the state after the iteration and, when the iteration
leaves the loop, how: the matched text (`return content`), the 404
escalation (`raise RuntimeError("snapshot not supported")`), the
exhausted retry budget (`raise RuntimeError("polling failed")`), or an
uncaught transport exception.  Note the source advances `_offset` by the
full page length before scanning the page, and scanning stops at the
first match. -/
def pollStep (cid : String) (s : PollState) (r : SnapResult) :
    PollState × Option PollOutcome :=
  match r with
  | .ok events =>
    let scanned := scanEvents cid s.lastIndex events
    match scanned.2 with
    | some text =>
        ({ s with offset := s.offset + events.length, lastIndex := scanned.1 },
         some (.found text))
    | none =>
        ({ offset := s.offset + events.length, lastIndex := scanned.1,
           delay := min (s.delay * (3 / 2)) 5, failures := 0 }, none)
  | .httpError status =>
    if status = 404 then (s, some .snapshotUnsupported)
    else
      let f := s.failures + 1
      let d := min (s.delay * 2) 15
      if 5 ≤ f then ({ s with failures := f, delay := d }, some .pollingExhausted)
      else ({ s with failures := f, delay := d }, none)
  | .otherExc => (s, some .otherError)

/-- `_wait_poll` run against a finite prefix of the transport's answers:
iterate `pollStep` until the loop is left; `none` means the loop is still
running when the supplied trace is exhausted. -/
def pollRun (cid : String) (s : PollState) :
    List SnapResult → PollState × Option PollOutcome
  | [] => (s, none)
  | r :: rest =>
    match pollStep cid s r with
    | (s2, some o) => (s2, some o)
    | (s2, none) => pollRun cid s2 rest

/-- The `(offset, page length)` of each successful snapshot request made
while `pollRun` consumes the trace. -/
def pollRequests (cid : String) (s : PollState) :
    List SnapResult → List (Nat × Nat)
  | [] => []
  | r :: rest =>
    let entry := match r with
      | .ok events => [(s.offset, events.length)]
      | _ => []
    match pollStep cid s r with
    | (_, some _) => entry
    | (s2, none) => entry ++ pollRequests cid s2 rest

/-- Starting from position `a`, each recorded request begins exactly
where the previous page ended, so the requested index ranges are
pairwise disjoint and in order. -/
def contiguousFrom : Nat → List (Nat × Nat) → Prop
  | _, [] => True
  | a, (start, len) :: rest => start = a ∧ contiguousFrom (start + len) rest

/-- All events of the successful pages of a transport trace. -/
def traceEvents : List SnapResult → List Event
  | [] => []
  | .ok es :: rest => es ++ traceEvents rest
  | _ :: rest => traceEvents rest

/-- `ClientConfig` (client.py lines 13-22); `base_url` is transport-only
and not needed by the embedded operations. -/
structure ClientConfig where
  model_id : String
  provider : Option String
  max_output_tokens : Option Int
  stream : Bool
  principal_id : String
  workspace_id : Option String
  lane : String

/-- `Capabilities` (gateway_api.py lines 10-14); providers are opaque
JSON objects here. -/
structure Capabilities where
  interface_version : Int
  providers : List JVal
  surfaces : List (String × Bool)

/-- `self._caps.surfaces.get(name, False)`. -/
def surfGet (surfaces : List (String × Bool)) (k : String) : Bool :=
  match surfaces with
  | [] => false
  | (k2, b) :: rest => if k2 = k then b else surfGet rest k

/-- The client's read-cursor state shared by both modes: `_offset` and
`_last_index` (client.py lines 30-31). -/
structure EngineCursor where
  offset : Nat
  lastIndex : Int

/-- `_wait_tail(correlation_id)` (client.py lines 98-105) applied to the
finite list of events the tail stream yields before closing: every event
updates `_last_index`; the first match is returned; a stream that closes
without a match returns `None`. -/
def waitTail (cid : String) (c : EngineCursor) (events : List Event) :
    EngineCursor × Option String :=
  let scanned := scanEvents cid c.lastIndex events
  ({ c with lastIndex := scanned.1 }, scanned.2)

/-- How a `wait_for_response` call ends in the model. -/
inductive WaitResult where
  | answer (text : String)
  | streamEnded
  | noReadSurface
  | snapshotUnsupported
  | pollingExhausted
  | transportException
  | stillPolling
deriving DecidableEq

/-- Lift a poll-loop outcome to a `wait_for_response` result. -/
def pollOutcomeResult : Option PollOutcome → WaitResult
  | some (.found t) => .answer t
  | some .snapshotUnsupported => .snapshotUnsupported
  | some .pollingExhausted => .pollingExhausted
  | some .otherError => .transportException
  | none => .stillPolling

/-- `_wait_poll(correlation_id)` (client.py lines 107-130) as a cursor
transformer: local `delay`/`failures` start fresh, cursors are read from
and written back to the client instance. -/
def waitPoll (cid : String) (c : EngineCursor) (trace : List SnapResult) :
    EngineCursor × WaitResult :=
  let run := pollRun cid (initPollState c.offset c.lastIndex) trace
  ({ offset := run.1.offset, lastIndex := run.1.lastIndex }, pollOutcomeResult run.2)

/-- `wait_for_response(correlation_id)` (client.py lines 91-96): mode
selection, then the selected wait.  The transport's possible answers for
either mode are passed as oracles; the branch that is not taken never
consults its oracle, and the `NoReadSurface` branch
(`raise RuntimeError("no supported read surface")`) consults neither. -/
def waitForResponse (cfg : ClientConfig) (caps : Capabilities) (cid : String)
    (c : EngineCursor) (tailEvents : List Event) (pollTrace : List SnapResult) :
    EngineCursor × WaitResult :=
  if cfg.stream && surfGet caps.surfaces "tail" then
    let r := waitTail cid c tailEvents
    (r.1, match r.2 with | some t => .answer t | none => .streamEnded)
  else if surfGet caps.surfaces "snapshot" then
    waitPoll cid c pollTrace
  else
    (c, .noReadSurface)

/-- One delivery call observed by the engine's cursor: a tail call
consuming a given event stream, or a poll call consuming a given
transport trace (each with its target correlation id). -/
inductive EngineCall where
  | tailCall (cid : String) (events : List Event)
  | pollCall (cid : String) (trace : List SnapResult)

/-- The cursor after one delivery call. -/
def engineStep (c : EngineCursor) : EngineCall → EngineCursor
  | .tailCall cid events => (waitTail cid c events).1
  | .pollCall cid trace => (waitPoll cid c trace).1

/-- The cursor after an arbitrary interleaving of tail and poll calls. -/
def engineRun (c : EngineCursor) : List EngineCall → EngineCursor
  | [] => c
  | call :: rest => engineRun (engineStep c call) rest

/-- A transport exception raised by `post_intent` (non-2xx status or a
network-level failure). -/
inductive TransportExc where
  | httpStatus (status : Int)
  | network
deriving DecidableEq

/-- The `inputs` dict of `send_message` before filtering
(client.py lines 56-66): each optional attribute paired with its
possibly-absent value. -/
def rawInputs (cfg : ClientConfig) (message : String) :
    List (String × Option JVal) :=
  [("principal_id", some (.jstr cfg.principal_id)),
   ("workspace_id", cfg.workspace_id.map .jstr),
   ("intent_type", some (.jstr "chat.message")),
   ("capability", some (.jstr "chat")),
   ("model_id", some (.jstr cfg.model_id)),
   ("provider", cfg.provider.map .jstr),
   ("max_output_tokens", cfg.max_output_tokens.map .jint),
   ("input_chars", some (.jint message.length)),
   ("input_bytes", some (.jint message.utf8ByteSize))]

/-- `inputs = \x7bk: v for k, v in inputs.items() if v is not None\x7d`
(client.py line 67). -/
def sendInputs (cfg : ClientConfig) (message : String) : List (String × JVal) :=
  (rawInputs cfg message).filterMap fun kv =>
    match kv.2 with
    | some v => some (kv.1, v)
    | none => none

/-- The intent envelope of `send_message` (client.py lines 69-86).  The
`parent_turn_id` field serialises the client's `_last_turn_id` as read
before it is reassigned (`None` becomes JSON `null`). -/
def buildEnvelope (cfg : ClientConfig) (threadId turnId : String)
    (parentTurnId : Option String) (cid message : String) : JVal :=
  .jobj
    [("interface_version", .jint 2),
     ("correlation_id", .jstr cid),
     ("payload", .jobj
       [("stream_id", .jstr "default"),
        ("lane", .jstr cfg.lane),
        ("actor", .jstr "dbl-chat-cli"),
        ("intent_type", .jstr "chat.message"),
        ("thread_id", .jstr threadId),
        ("turn_id", .jstr turnId),
        ("parent_turn_id", match parentTurnId with
          | some t => .jstr t
          | none => .jnull),
        ("payload", .jobj [("message", .jstr message)]),
        ("inputs", .jobj (sendInputs cfg message)),
        ("requested_model_id", .jstr cfg.model_id)])]

/-- What one `send_message` call leaves behind. -/
structure SendOutcome where
  lastTurnId : Option String
  envelope : JVal
  result : Except TransportExc JVal

/-- `send_message(message)` (client.py lines 51-89).  The freshly minted
ids are parameters (uuid4 is an external source of fresh names) and the
transport's answer to `post_intent(envelope)` is an oracle.  The source
assigns `self._last_turn_id = turn_id` (line 87) before calling
`post_intent` (line 88), so the recorded last turn is the new turn id
even when the post raises. -/
def sendMessage (cfg : ClientConfig) (threadId : String)
    (lastTurnId : Option String) (message corrId turnId : String)
    (postResult : Except TransportExc JVal) : SendOutcome :=
  let envelope := buildEnvelope cfg threadId turnId lastTurnId corrId message
  { lastTurnId := some turnId,
    envelope := envelope,
    result := postResult.map fun ack =>
      .jobj [("correlation_id", .jstr corrId), ("ack", ack)] }

/-- The `payload.parent_turn_id` field of an envelope. -/
def envParentTurnId (env : JVal) : Option JVal :=
  match env with
  | .jobj fields =>
    match dictGet fields "payload" with
    | some (.jobj p) => dictGet p "parent_turn_id"
    | _ => none
  | _ => none

example : extractResponse [("correlation_id", .jstr "Y")] "X" = none := rfl

example :
    extractResponse
      [("index", .jint 0), ("correlation_id", .jstr "X"),
       ("kind", .jstr "EXECUTION"), ("payload", .jobj [("output_text", .jstr "hi")])]
      "X" = some "hi" := rfl

example :
    extractResponse
      [("correlation_id", .jstr "X"), ("kind", .jstr "EXECUTION"),
       ("payload", .jobj [("error", .jobj [("code", .jstr "E1"), ("message", .jstr "boom")])])]
      "X" = some "(execution_error) E1: boom" := rfl

example :
    extractResponse
      [("correlation_id", .jstr "X"), ("kind", .jstr "EXECUTION"),
       ("payload", .jobj [("output_text", .jstr "")])]
      "X" = some "(execution) no output_text" := rfl

example : updateLastIndex 5 [("index", .jint 3)] = 5 := rfl
example : updateLastIndex 5 [("index", .jint 9)] = 9 := rfl
example : updateLastIndex 5 [] = 5 := rfl

theorem isStrEq_true_iff (v : Option JVal) (s : String) :
    isStrEq v s = true ↔ v = some (.jstr s) := by
  cases v with
  | none => simp [isStrEq]
  | some w => cases w <;> simp [isStrEq]

theorem extractResponse_corr {e : Event} {cid t : String}
    (h : extractResponse e cid = some t) :
    dictGet e "correlation_id" = some (.jstr cid) := by
  by_cases hc : isStrEq (dictGet e "correlation_id") cid = true
  · exact (isStrEq_true_iff _ _).1 hc
  · simp [extractResponse, hc] at h

theorem extractResponse_of_ne_corr {e : Event} {cid : String}
    (h : dictGet e "correlation_id" ≠ some (.jstr cid)) :
    extractResponse e cid = none := by
  have hc : isStrEq (dictGet e "correlation_id") cid = false := by
    rcases hb : isStrEq (dictGet e "correlation_id") cid with _ | _
    · rfl
    · exact absurd ((isStrEq_true_iff _ _).1 hb) h
  simp [extractResponse, hc]

theorem updateLastIndex_mono (current : Int) (e : Event) :
    current ≤ updateLastIndex current e := by
  unfold updateLastIndex
  rcases (dictGet e "index").bind pyInt with _ | idx
  · simp
  · simp only
    split <;> omega

theorem scanEvents_fst_mono (cid : String) (li : Int) (events : List Event) :
    li ≤ (scanEvents cid li events).1 := by
  induction events generalizing li with
  | nil => simp [scanEvents]
  | cons e rest ih =>
    rcases hx : extractResponse e cid with _ | t
    · simpa only [scanEvents, hx] using
        le_trans (updateLastIndex_mono li e) (ih (updateLastIndex li e))
    · simpa only [scanEvents, hx] using updateLastIndex_mono li e

theorem scanEvents_found {cid : String} {li : Int} {events : List Event} {t : String}
    (h : (scanEvents cid li events).2 = some t) :
    ∃ e ∈ events, extractResponse e cid = some t := by
  induction events generalizing li with
  | nil => simp [scanEvents] at h
  | cons e rest ih =>
    rcases hx : extractResponse e cid with _ | u
    · simp only [scanEvents, hx] at h
      obtain ⟨e2, he2, hex⟩ := ih h
      exact ⟨e2, List.mem_cons_of_mem _ he2, hex⟩
    · simp only [scanEvents, hx] at h
      exact ⟨e, List.mem_cons_self _ _, by rw [hx, h]⟩

theorem pollStep_lastIndex_mono (cid : String) (s : PollState) (r : SnapResult) :
    s.lastIndex ≤ (pollStep cid s r).1.lastIndex := by
  cases r with
  | ok events =>
    rcases hx : (scanEvents cid s.lastIndex events).2 with _ | t <;>
      simp [pollStep, hx, scanEvents_fst_mono]
  | httpError status =>
    by_cases h4 : status = 404
    · simp [pollStep, h4]
    · simp only [pollStep, if_neg h4]
      split <;> simp
  | otherExc => simp [pollStep]

theorem pollStep_offset_mono (cid : String) (s : PollState) (r : SnapResult) :
    s.offset ≤ (pollStep cid s r).1.offset := by
  cases r with
  | ok events =>
    rcases hx : (scanEvents cid s.lastIndex events).2 with _ | t <;>
      simp [pollStep, hx]
  | httpError status =>
    by_cases h4 : status = 404
    · simp [pollStep, h4]
    · simp only [pollStep, if_neg h4]
      split <;> simp
  | otherExc => simp [pollStep]

theorem pollRun_lastIndex_mono (cid : String) (trace : List SnapResult) :
    ∀ s : PollState, s.lastIndex ≤ (pollRun cid s trace).1.lastIndex := by
  induction trace with
  | nil => intro s; simp [pollRun]
  | cons r rest ih =>
    intro s
    rcases hx : pollStep cid s r with ⟨s2, o⟩
    have hmono : s.lastIndex ≤ s2.lastIndex := by
      have := pollStep_lastIndex_mono cid s r
      rwa [hx] at this
    cases o with
    | some o2 => simpa [pollRun, hx] using hmono
    | none => simpa [pollRun, hx] using le_trans hmono (ih s2)

theorem pollRun_found {cid : String} {trace : List SnapResult}
    {s : PollState} {t : String}
    (h : (pollRun cid s trace).2 = some (.found t)) :
    ∃ e ∈ traceEvents trace, extractResponse e cid = some t := by
  induction trace generalizing s with
  | nil => simp [pollRun] at h
  | cons r rest ih =>
    cases r with
    | ok events =>
      rcases hx : (scanEvents cid s.lastIndex events).2 with _ | u
      · have hstep : pollStep cid s (.ok events) =
            ({ offset := s.offset + events.length,
               lastIndex := (scanEvents cid s.lastIndex events).1,
               delay := min (s.delay * (3 / 2)) 5, failures := 0 }, none) := by
          simp [pollStep, hx]
        rw [pollRun, hstep] at h
        obtain ⟨e, he, hex⟩ := ih h
        exact ⟨e, by simp [traceEvents, he], hex⟩
      · have hstep : (pollStep cid s (.ok events)).2 = some (.found u) := by
          simp [pollStep, hx]
        rcases hps : pollStep cid s (.ok events) with ⟨s2, o⟩
        rw [hps] at hstep
        simp only at hstep
        rw [pollRun, hps, hstep] at h
        simp only [Option.some.injEq, PollOutcome.found.injEq] at h
        obtain ⟨e, he, hex⟩ := scanEvents_found hx
        exact ⟨e, by simp [traceEvents, he], by rw [hex, h]⟩
    | httpError status =>
      by_cases h4 : status = 404
      · simp [pollRun, pollStep, h4] at h
      · by_cases hf : 5 ≤ s.failures + 1
        · have hstep : pollStep cid s (.httpError status) =
              ({ s with failures := s.failures + 1,
                        delay := min (s.delay * 2) 15 }, some .pollingExhausted) := by
            simp [pollStep, h4, hf]
          rw [pollRun, hstep] at h
          simp at h
        · have hstep : pollStep cid s (.httpError status) =
              ({ s with failures := s.failures + 1,
                        delay := min (s.delay * 2) 15 }, none) := by
            simp [pollStep, h4, hf]
          rw [pollRun, hstep] at h
          obtain ⟨e, he, hex⟩ := ih h
          exact ⟨e, by simpa [traceEvents] using he, hex⟩
    | otherExc =>
      simp [pollRun, pollStep] at h

theorem engineStep_lastIndex_mono (c : EngineCursor) (call : EngineCall) :
    c.lastIndex ≤ (engineStep c call).lastIndex := by
  cases call with
  | tailCall cid events =>
    simpa [engineStep, waitTail] using scanEvents_fst_mono cid c.lastIndex events
  | pollCall cid trace =>
    simpa [engineStep, waitPoll] using
      pollRun_lastIndex_mono cid trace (initPollState c.offset c.lastIndex)

theorem engineRun_lastIndex_mono (calls : List EngineCall) :
    ∀ c : EngineCursor, c.lastIndex ≤ (engineRun c calls).lastIndex := by
  induction calls with
  | nil => intro c; simp [engineRun]
  | cons call rest ih =>
    intro c
    exact le_trans (engineStep_lastIndex_mono c call) (ih (engineStep c call))

/-- C1: in both tail and poll mode a returned text comes only from an
event whose `correlation_id` field equals the target correlation id; an
event whose correlation id differs or is absent never matches and is
never returned, whatever its kind or payload shape. -/
theorem await_response_correlation_exact :
    (∀ (e : Event) (cid : String),
      dictGet e "correlation_id" ≠ some (.jstr cid) →
      extractResponse e cid = none) ∧
    (∀ (cid : String) (c : EngineCursor) (events : List Event)
      (c2 : EngineCursor) (t : String),
      waitTail cid c events = (c2, some t) →
      ∃ e ∈ events, dictGet e "correlation_id" = some (.jstr cid) ∧
        extractResponse e cid = some t) ∧
    (∀ (cid : String) (s : PollState) (trace : List SnapResult) (t : String),
      (pollRun cid s trace).2 = some (.found t) →
      ∃ e ∈ traceEvents trace, dictGet e "correlation_id" = some (.jstr cid) ∧
        extractResponse e cid = some t) := by
  refine ⟨fun e cid h => extractResponse_of_ne_corr h, ?_, ?_⟩
  · intro cid c events c2 t h
    have h2 : (scanEvents cid c.lastIndex events).2 = some t := by
      have := congrArg Prod.snd h
      simpa [waitTail] using this
    obtain ⟨e, he, hex⟩ := scanEvents_found h2
    exact ⟨e, he, extractResponse_corr hex, hex⟩
  · intro cid s trace t h
    obtain ⟨e, he, hex⟩ := pollRun_found h
    exact ⟨e, he, extractResponse_corr hex, hex⟩

theorem await_response_correlation_exact_witness :
    extractResponse [("correlation_id", JVal.jstr "Y"),
      ("kind", JVal.jstr "EXECUTION"),
      ("payload", JVal.jobj [("output_text", JVal.jstr "hi")])] "X" = none :=
  await_response_correlation_exact.1 _ "X" (by simp [dictGet])

/-- C2: `last_index` is monotonically non-decreasing for the lifetime of
the engine: each observed event with an integer index updates the cursor
to the max of the current value and that index, and across any
interleaving of tail and poll calls the cursor never decreases, so
switching modes never rewinds the stream. -/
theorem last_index_monotone :
    (∀ (li : Int) (e : Event) (idx : Int),
      dictGet e "index" = some (.jint idx) →
      updateLastIndex li e = max li idx) ∧
    (∀ (c : EngineCursor) (calls : List EngineCall),
      c.lastIndex ≤ (engineRun c calls).lastIndex) := by
  constructor
  · intro li e idx h
    have hb : (dictGet e "index").bind pyInt = some idx := by rw [h]; rfl
    simp only [updateLastIndex, hb]
    rw [max_def]
    split_ifs <;> omega
  · intro c calls
    exact engineRun_lastIndex_mono calls c

theorem last_index_monotone_witness :
    updateLastIndex 2 [("index", JVal.jint 7)] = max 2 7 :=
  last_index_monotone.1 2 _ 7 rfl

theorem pollRequests_contiguous (cid : String) (trace : List SnapResult) :
    ∀ s : PollState, contiguousFrom s.offset (pollRequests cid s trace) := by
  induction trace with
  | nil => intro s; simp [pollRequests, contiguousFrom]
  | cons r rest ih =>
    intro s
    cases r with
    | ok events =>
      rcases hx : (scanEvents cid s.lastIndex events).2 with _ | t
      · have hstep : pollStep cid s (.ok events) =
            ({ offset := s.offset + events.length,
               lastIndex := (scanEvents cid s.lastIndex events).1,
               delay := min (s.delay * (3 / 2)) 5, failures := 0 }, none) := by
          simp [pollStep, hx]
        simp only [pollRequests, hstep, List.singleton_append]
        exact ⟨rfl, ih ⟨s.offset + events.length,
          (scanEvents cid s.lastIndex events).1, min (s.delay * (3 / 2)) 5, 0⟩⟩
      · have hstep : (pollStep cid s (.ok events)).2 = some (.found t) := by
          simp [pollStep, hx]
        rcases hps : pollStep cid s (.ok events) with ⟨s2, o⟩
        rw [hps] at hstep; simp only at hstep
        simp only [pollRequests, hps, hstep]
        exact ⟨rfl, trivial⟩
    | httpError status =>
      by_cases h4 : status = 404
      · simp [pollRequests, pollStep, h4, contiguousFrom]
      · by_cases hf : 5 ≤ s.failures + 1
        · have hstep : pollStep cid s (.httpError status) =
              ({ s with failures := s.failures + 1,
                        delay := min (s.delay * 2) 15 }, some .pollingExhausted) := by
            simp [pollStep, h4, hf]
          simp [pollRequests, hstep, contiguousFrom]
        · have hstep : pollStep cid s (.httpError status) =
              ({ s with failures := s.failures + 1,
                        delay := min (s.delay * 2) 15 }, none) := by
            simp [pollStep, h4, hf]
          simp only [pollRequests, hstep, List.nil_append]
          exact ih ⟨s.offset, s.lastIndex, min (s.delay * 2) 15, s.failures + 1⟩
    | otherExc =>
      simp [pollRequests, pollStep, contiguousFrom]

/-- C4: every successful snapshot page advances `_offset` by exactly the
number of events in the page (even an empty one), no iteration ever
decreases it, and the offset ranges requested by the successful pages of
a poll run are contiguous, so no event position is requested twice
through offset progression. -/
theorem poll_offset_exact_advance :
    (∀ (cid : String) (s : PollState) (events : List Event),
      (pollStep cid s (.ok events)).1.offset = s.offset + events.length) ∧
    (∀ (cid : String) (s : PollState) (r : SnapResult),
      s.offset ≤ (pollStep cid s r).1.offset) ∧
    (∀ (cid : String) (s : PollState) (trace : List SnapResult),
      contiguousFrom s.offset (pollRequests cid s trace)) := by
  refine ⟨?_, fun cid s r => pollStep_offset_mono cid s r,
    fun cid s trace => pollRequests_contiguous cid trace s⟩
  intro cid s events
  rcases hx : (scanEvents cid s.lastIndex events).2 with _ | t <;>
    simp [pollStep, hx]

/-- C6: a snapshot request failing with HTTP 404 makes the poll loop
raise the fatal `SnapshotUnsupported` error at its first occurrence: the
rest of the trace is never consumed (no retry) and the loop state is
returned unchanged, so the failure is not counted towards the
consecutive-failure budget. -/
theorem snapshot_404_fatal_first_occurrence :
    ∀ (cid : String) (s : PollState) (rest : List SnapResult),
      pollRun cid s (.httpError 404 :: rest) = (s, some .snapshotUnsupported) := by
  intro cid s rest
  simp [pollRun, pollStep]

/-- C7: when the session is not both configured to stream and offered
the tail surface, and the capabilities do not advertise the snapshot
surface, `wait_for_response` fails with `NoReadSurface` with the cursor
untouched and independently of whatever the transport oracles hold (no
network call is consulted); and when streaming is configured and tail is
advertised, tail mode takes precedence over poll mode. -/
theorem no_read_surface_immediate :
    (∀ (cfg : ClientConfig) (caps : Capabilities) (cid : String)
      (c : EngineCursor) (tailEvents : List Event) (pollTrace : List SnapResult),
      ¬(cfg.stream = true ∧ surfGet caps.surfaces "tail" = true) →
      surfGet caps.surfaces "snapshot" = false →
      waitForResponse cfg caps cid c tailEvents pollTrace = (c, .noReadSurface)) ∧
    (∀ (cfg : ClientConfig) (caps : Capabilities) (cid : String)
      (c : EngineCursor) (tailEvents : List Event) (pollTrace : List SnapResult),
      cfg.stream = true → surfGet caps.surfaces "tail" = true →
      waitForResponse cfg caps cid c tailEvents pollTrace =
        ((waitTail cid c tailEvents).1,
         match (waitTail cid c tailEvents).2 with
         | some t => .answer t
         | none => .streamEnded)) := by
  constructor
  · intro cfg caps cid c te pt hn hs
    have hb : (cfg.stream && surfGet caps.surfaces "tail") = false := by
      cases hst : cfg.stream with
      | false => simp
      | true =>
        cases htl : surfGet caps.surfaces "tail" with
        | false => simp
        | true => exact absurd ⟨hst, htl⟩ hn
    simp [waitForResponse, hb, hs]
  · intro cfg caps cid c te pt h1 h2
    simp [waitForResponse, h1, h2]

theorem no_read_surface_immediate_witness :
    waitForResponse
      { model_id := "m", provider := none, max_output_tokens := none,
        stream := false, principal_id := "p", workspace_id := none, lane := "l" }
      { interface_version := 2, providers := [], surfaces := [] }
      "X" { offset := 0, lastIndex := -1 } [] [] =
      ({ offset := 0, lastIndex := -1 }, .noReadSurface) :=
  no_read_surface_immediate.1 _ _ _ _ _ _ (by simp) rfl

/-- C9: the envelope's `inputs` dict contains no attribute whose
configured value is absent: `workspace_id`, `provider` and
`max_output_tokens` are present (with their configured value) exactly
when that value is non-null, while `principal_id`, `intent_type`,
`capability`, `model_id`, `input_chars` and `input_bytes` are always
present. -/
theorem inputs_drop_absent_attributes :
    ∀ (cfg : ClientConfig) (msg : String),
      dictGet (sendInputs cfg msg) "workspace_id" = cfg.workspace_id.map .jstr ∧
      dictGet (sendInputs cfg msg) "provider" = cfg.provider.map .jstr ∧
      dictGet (sendInputs cfg msg) "max_output_tokens"
          = cfg.max_output_tokens.map .jint ∧
      dictGet (sendInputs cfg msg) "principal_id" = some (.jstr cfg.principal_id) ∧
      dictGet (sendInputs cfg msg) "intent_type" = some (.jstr "chat.message") ∧
      dictGet (sendInputs cfg msg) "capability" = some (.jstr "chat") ∧
      dictGet (sendInputs cfg msg) "model_id" = some (.jstr cfg.model_id) ∧
      dictGet (sendInputs cfg msg) "input_chars" = some (.jint msg.length) ∧
      dictGet (sendInputs cfg msg) "input_bytes" = some (.jint msg.utf8ByteSize) := by
  intro cfg msg
  rcases hw : cfg.workspace_id with _ | w <;>
  rcases hp : cfg.provider with _ | p <;>
  rcases hm : cfg.max_output_tokens with _ | m <;>
    simp [sendInputs, rawInputs, dictGet, hw, hp, hm]

/-- C10: `send_message` records the freshly minted turn id as the last
turn before posting the intent, so a submission the transport rejects
still advances the turn lineage: the rejected call's outcome carries the
rejected turn id as the last turn, the rejection is surfaced unchanged,
and the next turn's envelope names the rejected turn's id as its
`parent_turn_id`. -/
theorem rejected_submission_advances_lineage :
    ∀ (cfg : ClientConfig) (threadId : String) (lastTurn0 : Option String)
      (msg1 cid1 turn1 : String) (exc : TransportExc)
      (msg2 cid2 turn2 : String) (post2 : Except TransportExc JVal),
      (sendMessage cfg threadId lastTurn0 msg1 cid1 turn1 (.error exc)).result
          = .error exc ∧
      (sendMessage cfg threadId lastTurn0 msg1 cid1 turn1 (.error exc)).lastTurnId
          = some turn1 ∧
      envParentTurnId
        (sendMessage cfg threadId
          (sendMessage cfg threadId lastTurn0 msg1 cid1 turn1 (.error exc)).lastTurnId
          msg2 cid2 turn2 post2).envelope = some (.jstr turn1) := by
  intro cfg threadId lastTurn0 msg1 cid1 turn1 exc msg2 cid2 turn2 post2
  refine ⟨rfl, rfl, ?_⟩
  simp [sendMessage, buildEnvelope, envParentTurnId, dictGet]

theorem pollStep_delay_lb (cid : String) (s : PollState) (r : SnapResult)
    (h : 1 / 2 ≤ s.delay) : 1 / 2 ≤ (pollStep cid s r).1.delay := by
  cases r with
  | ok events =>
    rcases hx : (scanEvents cid s.lastIndex events).2 with _ | t
    · have hd : (pollStep cid s (.ok events)).1.delay = min (s.delay * (3 / 2)) 5 := by
        simp [pollStep, hx]
      rw [hd]
      exact le_min (by linarith) (by norm_num)
    · have hd : (pollStep cid s (.ok events)).1.delay = s.delay := by
        simp [pollStep, hx]
      rw [hd]; exact h
  | httpError status =>
    by_cases h4 : status = 404
    · simpa [pollStep, h4] using h
    · have hd : (pollStep cid s (.httpError status)).1.delay = min (s.delay * 2) 15 := by
        simp only [pollStep, if_neg h4]
        split <;> rfl
      rw [hd]
      exact le_min (by linarith) (by norm_num)
  | otherExc => simpa [pollStep] using h

theorem pollRun_delay_lb (cid : String) (trace : List SnapResult) :
    ∀ s : PollState, 1 / 2 ≤ s.delay → 1 / 2 ≤ (pollRun cid s trace).1.delay := by
  induction trace with
  | nil => intro s h; simpa [pollRun] using h
  | cons r rest ih =>
    intro s h
    rcases hx : pollStep cid s r with ⟨s2, o⟩
    have h2 : 1 / 2 ≤ s2.delay := by
      have := pollStep_delay_lb cid s r h
      rwa [hx] at this
    cases o with
    | some o2 => simpa [pollRun, hx] using h2
    | none => simpa [pollRun, hx] using ih s2 h2

/-- C8: the poll delay starts at 0.5 s; a successful page that yields no
match resets the failure counter to zero and sets the delay to
`min(delay * 1.5, 5)`; a counted (non-404 HTTP) transport failure
increments the counter and sets the delay to `min(delay * 2, 15)`; so an
empty poll keeps the delay within the 5 s ceiling and strictly increases
a positive delay still below that ceiling, a counted failure keeps it
within the 15 s ceiling and strictly increases a positive delay below
it, and the (slept-for) delay never drops below its initial 0.5 s during
a run. -/
theorem poll_backoff_monotone :
    (∀ (offset : Nat) (lastIndex : Int),
      (initPollState offset lastIndex).delay = 1 / 2) ∧
    (∀ (cid : String) (s : PollState) (events : List Event),
      (scanEvents cid s.lastIndex events).2 = none →
      (pollStep cid s (.ok events)).1.failures = 0 ∧
      (pollStep cid s (.ok events)).1.delay = min (s.delay * (3 / 2)) 5 ∧
      (pollStep cid s (.ok events)).1.delay ≤ 5 ∧
      (0 < s.delay → s.delay < 5 →
        s.delay < (pollStep cid s (.ok events)).1.delay)) ∧
    (∀ (cid : String) (s : PollState) (status : Int), status ≠ 404 →
      (pollStep cid s (.httpError status)).1.failures = s.failures + 1 ∧
      (pollStep cid s (.httpError status)).1.delay = min (s.delay * 2) 15 ∧
      (pollStep cid s (.httpError status)).1.delay ≤ 15 ∧
      (0 < s.delay → s.delay < 15 →
        s.delay < (pollStep cid s (.httpError status)).1.delay)) ∧
    (∀ (cid : String) (trace : List SnapResult) (s : PollState),
      1 / 2 ≤ s.delay → 1 / 2 ≤ (pollRun cid s trace).1.delay) := by
  refine ⟨fun _ _ => rfl, ?_, ?_, fun cid trace s h => pollRun_delay_lb cid trace s h⟩
  · intro cid s events hx
    have hf : (pollStep cid s (.ok events)).1.failures = 0 := by
      simp [pollStep, hx]
    have hd : (pollStep cid s (.ok events)).1.delay = min (s.delay * (3 / 2)) 5 := by
      simp [pollStep, hx]
    refine ⟨hf, hd, by rw [hd]; exact min_le_right _ _, ?_⟩
    intro hpos hlt
    rw [hd]
    exact lt_min (by linarith) hlt
  · intro cid s status h4
    have hf : (pollStep cid s (.httpError status)).1.failures = s.failures + 1 := by
      simp only [pollStep, if_neg h4]
      split <;> rfl
    have hd : (pollStep cid s (.httpError status)).1.delay = min (s.delay * 2) 15 := by
      simp only [pollStep, if_neg h4]
      split <;> rfl
    refine ⟨hf, hd, by rw [hd]; exact min_le_right _ _, ?_⟩
    intro hpos hlt
    rw [hd]
    exact lt_min (by linarith) hlt

theorem poll_backoff_monotone_witness :
    (pollStep "X" (initPollState 0 (-1)) (.ok [])).1.failures = 0 ∧
    (initPollState 0 (-1)).delay
        < (pollStep "X" (initPollState 0 (-1)) (.ok [])).1.delay := by
  refine ⟨(poll_backoff_monotone.2.1 "X" _ [] rfl).1, ?_⟩
  exact (poll_backoff_monotone.2.1 "X" _ [] rfl).2.2.2
    (by norm_num [initPollState]) (by norm_num [initPollState])

theorem pollRun_httpErrors (cid : String) (statuses : List Int) :
    ∀ s : PollState, (∀ st ∈ statuses, st ≠ 404) →
      s.failures + statuses.length < 5 →
      (pollRun cid s (statuses.map .httpError)).2 = none ∧
      (pollRun cid s (statuses.map .httpError)).1.failures
          = s.failures + statuses.length := by
  induction statuses with
  | nil => intro s _ _; simp [pollRun]
  | cons st rest ih =>
    intro s hall hlt
    have h4 : st ≠ 404 := hall st (List.mem_cons_self _ _)
    have hf : ¬ 5 ≤ s.failures + 1 := by
      simp only [List.length_cons] at hlt
      omega
    have hstep : pollStep cid s (.httpError st) =
        ({ s with failures := s.failures + 1,
                  delay := min (s.delay * 2) 15 }, none) := by
      simp [pollStep, h4, hf]
    obtain ⟨h1, h2⟩ := ih ⟨s.offset, s.lastIndex, min (s.delay * 2) 15, s.failures + 1⟩
      (fun x hx => hall x (List.mem_cons_of_mem _ hx))
      (by simp only [List.length_cons] at hlt; simpa using by omega)
    simp only [List.map_cons, pollRun, hstep]
    refine ⟨h1, ?_⟩
    rw [h2]
    simp only [List.length_cons]
    omega

theorem pollRun_append (cid : String) (t1 : List SnapResult) :
    ∀ (s : PollState) (t2 : List SnapResult),
      (pollRun cid s t1).2 = none →
      pollRun cid s (t1 ++ t2) = pollRun cid (pollRun cid s t1).1 t2 := by
  induction t1 with
  | nil => intro s t2 _; simp [pollRun]
  | cons r rest ih =>
    intro s t2 h
    rcases hx : pollStep cid s r with ⟨s2, o⟩
    cases o with
    | some o2 =>
      rw [pollRun, hx] at h
      simp at h
    | none =>
      rw [List.cons_append, pollRun, hx, pollRun, hx]
      simp only
      exact ih s2 t2 (by rw [pollRun, hx] at h; simpa using h)

/-- C5 (amended): for every HTTP status error other than 404, the poll
loop increments the consecutive-failure counter, doubles the delay with
a 15-second ceiling, and retries — such errors are invisible to the
caller while fewer than 5 consecutive failures have accumulated — and
the 5th consecutive such failure fails fatally with `PollingExhausted`.
A transport error that is not an HTTP status error (e.g. a connection
failure) is not caught by the loop and propagates on its first
occurrence. -/
theorem http_error_backoff_and_exhaustion :
    (∀ (cid : String) (s : PollState) (status : Int), status ≠ 404 →
      s.failures + 1 < 5 →
      pollStep cid s (.httpError status) =
        ({ s with failures := s.failures + 1,
                  delay := min (s.delay * 2) 15 }, none)) ∧
    (∀ (cid : String) (s : PollState) (status : Int), status ≠ 404 →
      5 ≤ s.failures + 1 →
      (pollStep cid s (.httpError status)).2 = some .pollingExhausted) ∧
    (∀ (cid : String) (statuses : List Int) (s : PollState),
      (∀ st ∈ statuses, st ≠ 404) → s.failures + statuses.length < 5 →
      (pollRun cid s (statuses.map .httpError)).2 = none ∧
      (pollRun cid s (statuses.map .httpError)).1.failures
          = s.failures + statuses.length) ∧
    (∀ (cid : String) (statuses : List Int) (st : Int) (s : PollState),
      s.failures = 0 → statuses.length = 4 → (∀ x ∈ statuses, x ≠ 404) →
      st ≠ 404 →
      (pollRun cid s ((statuses ++ [st]).map .httpError)).2
          = some .pollingExhausted) ∧
    (∀ (cid : String) (s : PollState) (rest : List SnapResult),
      pollRun cid s (.otherExc :: rest) = (s, some .otherError)) := by
  refine ⟨?_, ?_, fun cid statuses s hall hlt => pollRun_httpErrors cid statuses s hall hlt,
    ?_, ?_⟩
  · intro cid s status h4 hlt
    have hf : ¬ 5 ≤ s.failures + 1 := by omega
    simp [pollStep, h4, hf]
  · intro cid s status h4 hf
    simp [pollStep, h4, hf]
  · intro cid statuses st s h0 hlen hall hst
    have hc := pollRun_httpErrors cid statuses s hall (by omega)
    rw [List.map_append, List.map_singleton,
      pollRun_append cid _ _ _ hc.1]
    have hf : 5 ≤ (pollRun cid s (statuses.map .httpError)).1.failures + 1 := by
      rw [hc.2]
      omega
    have hstep : (pollStep cid (pollRun cid s (statuses.map .httpError)).1
        (.httpError st)).2 = some .pollingExhausted := by
      simp [pollStep, hst, hf]
    rcases hx : pollStep cid (pollRun cid s (statuses.map .httpError)).1
        (.httpError st) with ⟨s5, o⟩
    rw [hx] at hstep
    simp only at hstep
    rw [pollRun, hx, hstep]
  · intro cid s rest
    simp [pollRun, pollStep]

theorem http_error_backoff_and_exhaustion_witness :
    (pollRun "X" (initPollState 0 (-1))
        ([500, 500, 500, 500].map SnapResult.httpError)).2 = none ∧
    (pollRun "X" (initPollState 0 (-1))
        (([500, 500, 500, 500] ++ [500]).map SnapResult.httpError)).2
        = some PollOutcome.pollingExhausted := by
  constructor
  · exact (http_error_backoff_and_exhaustion.2.2.1 "X" [500, 500, 500, 500] _
      (by decide) (by norm_num [initPollState])).1
  · exact http_error_backoff_and_exhaustion.2.2.2.1 "X" [500, 500, 500, 500] 500 _
      rfl rfl (by decide) (by decide)

/-- C5 counterexample: `_wait_poll` catches only `httpx.HTTPStatusError`,
so a transport error of any other class (e.g. a connection failure)
escapes the loop at its very first occurrence, with zero consecutive
failures counted — it is neither retried nor converted into
`PollingExhausted`. -/
theorem transport_error_escapes_before_budget :
    (pollRun "X" (initPollState 0 (-1)) [SnapResult.otherExc]).2
        = some PollOutcome.otherError ∧
    (initPollState 0 (-1)).failures = 0 ∧
    some PollOutcome.otherError ≠ some PollOutcome.pollingExhausted :=
  ⟨rfl, rfl, by decide⟩

theorem execAltText_eq_none {p : List (String × JVal)}
    (ha : ∀ o, pyOrOpt (dictGet p "output") (dictGet p "result") = some (.jobj o) →
      strippedText (dictGet o "text") = none) :
    execAltText p = none := by
  unfold execAltText
  rcases hpo : pyOrOpt (dictGet p "output") (dictGet p "result") with _ | v
  · rfl
  · cases v with
    | jobj o => exact ha o hpo
    | jnull => rfl
    | jbool b => rfl
    | jint n => rfl
    | jstr s => rfl
    | jarr a => rfl

/-- C3 counterexample: a matching `EXECUTION` event whose payload carries
`output_text` present but blank (the empty string) does not yield that
`output_text`: the code requires a non-blank string and falls through to
the sentinel, so "the payload's direct output_text if present" fails as
stated at this input. -/
theorem execution_output_text_blank_counterexample :
    extractResponse
      [("correlation_id", JVal.jstr "X"), ("kind", JVal.jstr "EXECUTION"),
       ("payload", JVal.jobj [("output_text", JVal.jstr "")])] "X"
      = some "(execution) no output_text" ∧
    extractResponse
      [("correlation_id", JVal.jstr "X"), ("kind", JVal.jstr "EXECUTION"),
       ("payload", JVal.jobj [("output_text", JVal.jstr "")])] "X"
      ≠ some "" :=
  ⟨rfl, by decide⟩

/-- C3 (amended): for every event matching the target correlation id
with kind `EXECUTION` and a dict payload, the event ends the wait with a
result chosen by this preference order: the payload's direct
`output_text` if it is a non-blank string; else the non-blank string
`text` field of the payload's `output`-or-`result` object; else, if an
`error` object is present, the string
"(execution_error) `<code>`: `<message>`"; else the sentinel string
"(execution) no output_text".  In particular payload
`{output_text:"hi"}` yields `"hi"` and payload
`{error:{code:"E1", message:"boom"}}` yields
`"(execution_error) E1: boom"`. -/
theorem execution_terminal_preference (event : Event) (cid : String)
    (p : List (String × JVal))
    (hc : dictGet event "correlation_id" = some (.jstr cid))
    (hk : dictGet event "kind" = some (.jstr "EXECUTION"))
    (hp : dictGet event "payload" = some (.jobj p)) :
    extractResponse event cid = some (execOutput p) ∧
    (∀ s, strippedText (dictGet p "output_text") = some s → execOutput p = s) ∧
    (∀ o t, strippedText (dictGet p "output_text") = none →
      pyOrOpt (dictGet p "output") (dictGet p "result") = some (.jobj o) →
      strippedText (dictGet o "text") = some t → execOutput p = t) ∧
    (∀ e, strippedText (dictGet p "output_text") = none →
      (∀ o, pyOrOpt (dictGet p "output") (dictGet p "result") = some (.jobj o) →
        strippedText (dictGet o "text") = none) →
      dictGet p "error" = some (.jobj e) →
      execOutput p = pyExecError ((dictGet e "code").getD (.jstr "error"))
        ((dictGet e "message").getD (.jstr ""))) ∧
    (strippedText (dictGet p "output_text") = none →
      (∀ o, pyOrOpt (dictGet p "output") (dictGet p "result") = some (.jobj o) →
        strippedText (dictGet o "text") = none) →
      (∀ e, dictGet p "error" ≠ some (.jobj e)) →
      execOutput p = "(execution) no output_text") ∧
    extractResponse
      [("index", JVal.jint 0), ("correlation_id", JVal.jstr "X"),
       ("kind", JVal.jstr "EXECUTION"),
       ("payload", JVal.jobj [("output_text", JVal.jstr "hi")])] "X"
      = some "hi" ∧
    extractResponse
      [("index", JVal.jint 0), ("correlation_id", JVal.jstr "X"),
       ("kind", JVal.jstr "EXECUTION"),
       ("payload", JVal.jobj
         [("error", JVal.jobj
           [("code", JVal.jstr "E1"), ("message", JVal.jstr "boom")])])] "X"
      = some "(execution_error) E1: boom" := by
  refine ⟨?_, ?_, ?_, ?_, ?_, rfl, rfl⟩
  · have hcs : isStrEq (dictGet event "correlation_id") cid = true := by
      rw [hc]
      simp [isStrEq]
    simp [extractResponse, hcs, hk, hp]
  · intro s hs
    simp [execOutput, hs]
  · intro o t hd ho ht
    have ha : execAltText p = some t := by
      unfold execAltText
      rw [ho]
      exact ht
    simp [execOutput, hd, ha]
  · intro e hd ha he
    have han : execAltText p = none := execAltText_eq_none ha
    simp [execOutput, hd, han, he]
  · intro hd ha he
    have han : execAltText p = none := execAltText_eq_none ha
    rcases herr : dictGet p "error" with _ | v
    · simp [execOutput, hd, han, herr]
    · cases v with
      | jobj e2 => exact absurd herr (he e2)
      | jnull => simp [execOutput, hd, han, herr]
      | jbool b => simp [execOutput, hd, han, herr]
      | jint n => simp [execOutput, hd, han, herr]
      | jstr s => simp [execOutput, hd, han, herr]
      | jarr a => simp [execOutput, hd, han, herr]

theorem execution_terminal_preference_witness :
    extractResponse
      [("index", JVal.jint 0), ("correlation_id", JVal.jstr "X"),
       ("kind", JVal.jstr "EXECUTION"),
       ("payload", JVal.jobj [("output_text", JVal.jstr "hi")])] "X"
      = some "hi" := by
  have h := execution_terminal_preference
    [("index", JVal.jint 0), ("correlation_id", JVal.jstr "X"),
     ("kind", JVal.jstr "EXECUTION"),
     ("payload", JVal.jobj [("output_text", JVal.jstr "hi")])] "X"
    [("output_text", JVal.jstr "hi")] rfl rfl rfl
  rw [h.1, h.2.1 "hi" rfl]
